import Mathlib

/-!
Verification of the vite-plugin-optimize-videos pipeline.

The repository ships three variants of the plugin source:
variant v1 is the first half of src/index.ts (sequential loop, no mute
option), variant v2 is the second half of src/index.ts (concurrency +
mute option), and variant p0 (src/unnamed/part_000) is a legacy copy
that agrees with v1 on all the functions modelled here.

Strings are modelled with Lean strings; the JavaScript helpers
toLowerCase, includes, startsWith and Node's path.extname are embedded
below for ordinary (ASCII, slash-free) directory-entry names, which is
how the pipeline invokes them.
-/

namespace VitePluginOptimizeVideos

/-- Model of JavaScript String.prototype.toLowerCase, per-character
ASCII lowering (the pipeline only feeds it ASCII extension strings). -/
def jsToLowerCase (s : String) : String :=
  ⟨s.data.map Char.toLower⟩

/-- Boolean check that `p` is an initial segment of `s` (character lists). -/
def leadsCL : List Char → List Char → Bool
  | [], _ => true
  | _ :: _, [] => false
  | a :: as, b :: bs => a = b && leadsCL as bs

/-- Boolean check that `p` occurs contiguously somewhere inside `s`. -/
def occursCL (p : List Char) : List Char → Bool
  | [] => leadsCL p []
  | c :: rest => leadsCL p (c :: rest) || occursCL p rest

/-- Model of JavaScript s.includes(p): substring containment. -/
def jsIncludes (s p : String) : Bool :=
  occursCL p.data s.data

/-- Suffix of a character list starting at its last dot, if any. -/
def lastDotSuffix : List Char → Option (List Char)
  | [] => none
  | c :: rest =>
    match lastDotSuffix rest with
    | some t => some t
    | none => if c = '.' then some (c :: rest) else none

/-- Model of Node path.extname for a plain entry name (no slashes):
the suffix starting at the last dot, or the empty string when there is
no dot or the only dot is the leading character of the name. -/
def extname (s : String) : String :=
  match s.data with
  | [] => ""
  | c :: rest =>
    match lastDotSuffix rest with
    | some t => ⟨t⟩
    | none => if c = '.' then "" else ""

/-- The supported extensions, VIDEO_EXTENSIONS in every source variant. -/
def VIDEO_EXTENSIONS : List String := [".mp4", ".webm", ".mov", ".avi"]

/-- Per-extension override record (VideoFormatOptions in src/index.ts,
second variant; optional fields are absent when undefined). -/
structure VideoFormatOptions where
  quality : Option Nat := none
  preset : Option String := none
  mute : Option Bool := none

/-- Plugin options record (OptimizeVideosOptions in src/index.ts, second
variant). -/
structure OptimizeVideosOptions where
  exclude : List String := []
  quality : Option Nat := none
  preset : Option String := none
  mute : Option Bool := none
  concurrency : Option Nat := none
  mp4 : Option VideoFormatOptions := none
  webm : Option VideoFormatOptions := none
  mov : Option VideoFormatOptions := none
  avi : Option VideoFormatOptions := none

/-- Dynamic lookup options[lower] for a lowered extension key: only the
four extension-named fields of the options bag can be hit. -/
def lookupFormat (lower : String) (o : OptimizeVideosOptions) :
    Option VideoFormatOptions :=
  if lower = ".mp4" then o.mp4
  else if lower = ".webm" then o.webm
  else if lower = ".mov" then o.mov
  else if lower = ".avi" then o.avi
  else none

/-- Resolved per-file options (return type of getVideoOptions, second
variant of src/index.ts). -/
structure ResolvedOptions where
  quality : Nat
  preset : String
  mute : Bool
  deriving DecidableEq

/-- getVideoOptions from src/index.ts (second variant, lines 288-299):
each field resolves as formatOptions?.field ?? options.field ?? default. -/
def getVideoOptions (ext : String) (options : OptimizeVideosOptions) :
    ResolvedOptions :=
  let lower := jsToLowerCase ext
  let formatOptions := lookupFormat lower options
  { quality := ((formatOptions.bind VideoFormatOptions.quality).orElse
      fun _ => options.quality).getD 18
    preset := ((formatOptions.bind VideoFormatOptions.preset).orElse
      fun _ => options.preset).getD "medium"
    mute := ((formatOptions.bind VideoFormatOptions.mute).orElse
      fun _ => options.mute).getD false }

/-- Model of JavaScript pattern.startsWith("."): the first character
of the pattern is a dot. -/
def startsWithDot (pattern : String) : Bool :=
  match pattern.data with
  | [] => false
  | c :: _ => c = '.'

/-- The body of the exclude.some callback in isVideoFile: a dot pattern
compares against the lowered extension, any other pattern is a
substring test on the name the caller passed (the base name). -/
def patternMatches (lowerExt fileName pattern : String) : Bool :=
  if startsWithDot pattern then lowerExt = pattern
  else jsIncludes fileName pattern

/-- isVideoFile from src/index.ts (identical in all three variants):
supported extension, and no exclude pattern matches. -/
def isVideoFile (fileName : String) (exclude : List String) : Bool :=
  let ext := jsToLowerCase (extname fileName)
  if ! (VIDEO_EXTENSIONS.contains ext) then false
  else ! exclude.any fun pattern => patternMatches ext fileName pattern

/-- Resolved per-file options of the legacy variants (no mute field). -/
structure ResolvedQP where
  quality : Nat
  preset : String
  deriving DecidableEq

/-- Codec parameters (return type of getFormatConfig). -/
structure FormatConfig where
  codec : String
  format : String
  options : List String
  deriving DecidableEq

/-- getFormatConfig from src/index.ts, first variant (lines 84-157):
explicit branches for .mp4, .webm, .mov, with .avi as the final
fallback. -/
def getFormatConfig_v1 (ext : String) (opts : ResolvedQP) : FormatConfig :=
  let lower := jsToLowerCase ext
  if lower = ".mp4" then
    { codec := "libx264", format := "mp4"
      options := ["-crf", toString opts.quality, "-preset", opts.preset,
        "-profile:v", "high", "-level", "4.0", "-pix_fmt", "yuv420p",
        "-movflags", "+faststart", "-y"] }
  else if lower = ".webm" then
    let cpuUsed : String :=
      if opts.preset = "slow" then "0"
      else if opts.preset = "medium" then "2" else "4"
    { codec := "libvpx-vp9", format := "webm"
      options := ["-crf", toString opts.quality, "-b:v", "0",
        "-pix_fmt", "yuv420p", "-cpu-used", cpuUsed, "-y"] }
  else if lower = ".mov" then
    { codec := "libx264", format := "mov"
      options := ["-crf", toString opts.quality, "-preset", opts.preset,
        "-pix_fmt", "yuv420p", "-y"] }
  else
    { codec := "libx264", format := "avi"
      options := ["-crf", toString opts.quality, "-preset", opts.preset,
        "-pix_fmt", "yuv420p", "-y"] }

/-- getFormatConfig from src/unnamed/part_000 (lines 83-156), textually
identical to the first variant of src/index.ts. -/
def getFormatConfig_p0 (ext : String) (opts : ResolvedQP) : FormatConfig :=
  let lower := jsToLowerCase ext
  if lower = ".mp4" then
    { codec := "libx264", format := "mp4"
      options := ["-crf", toString opts.quality, "-preset", opts.preset,
        "-profile:v", "high", "-level", "4.0", "-pix_fmt", "yuv420p",
        "-movflags", "+faststart", "-y"] }
  else if lower = ".webm" then
    let cpuUsed : String :=
      if opts.preset = "slow" then "0"
      else if opts.preset = "medium" then "2" else "4"
    { codec := "libvpx-vp9", format := "webm"
      options := ["-crf", toString opts.quality, "-b:v", "0",
        "-pix_fmt", "yuv420p", "-cpu-used", cpuUsed, "-y"] }
  else if lower = ".mov" then
    { codec := "libx264", format := "mov"
      options := ["-crf", toString opts.quality, "-preset", opts.preset,
        "-pix_fmt", "yuv420p", "-y"] }
  else
    { codec := "libx264", format := "avi"
      options := ["-crf", toString opts.quality, "-preset", opts.preset,
        "-pix_fmt", "yuv420p", "-y"] }

/-- getFormatConfig from src/index.ts, second variant (lines 340-410):
optionsCommon plus a webm early return; .mov and .avi reuse
optionsCommon; every other extension (including .mp4) falls into the
else branch that appends the mp4-specific flags and keeps the mp4
defaults for codec and format. -/
def getFormatConfig_v2 (ext : String) (opts : ResolvedOptions) : FormatConfig :=
  let lower := jsToLowerCase ext
  let optionsCommon := ["-crf", toString opts.quality, "-preset", opts.preset,
    "-pix_fmt", "yuv420p", "-y"]
  if lower = ".webm" then
    let cpuUsed : String :=
      if opts.preset = "slow" then "0"
      else if opts.preset = "medium" then "2" else "4"
    { codec := "libvpx-vp9", format := "webm"
      options := ["-crf", toString opts.quality, "-b:v", "0",
        "-pix_fmt", "yuv420p", "-cpu-used", cpuUsed, "-y"] }
  else if lower = ".mov" then
    { codec := "libx264", format := "mov", options := optionsCommon }
  else if lower = ".avi" then
    { codec := "libx264", format := "avi", options := optionsCommon }
  else
    { codec := "libx264", format := "mp4"
      options := optionsCommon ++ ["-profile:v", "high", "-level", "4.0",
        "-movflags", "+faststart"] }

/-- The data handed to the external transcoding engine by optimizeVideo:
codec, container, encoder flags, and whether the audio stream is
dropped (.noAudio). -/
structure TranscodeInvocation where
  codec : String
  format : String
  flags : List String
  dropAudio : Bool
  deriving DecidableEq

/-- Engine invocation built by optimizeVideo in the first variant of
src/index.ts (lines 159-185): .noAudio() is always called. -/
def optimizeVideoCmd_v1 (inputPath : String) (opts : ResolvedQP) :
    TranscodeInvocation :=
  let ext := jsToLowerCase (extname inputPath)
  let cfg := getFormatConfig_v1 ext opts
  { codec := cfg.codec, format := cfg.format, flags := cfg.options
    dropAudio := true }

/-- Engine invocation built by optimizeVideo in src/unnamed/part_000
(lines 158-184): .noAudio() is always called. -/
def optimizeVideoCmd_p0 (inputPath : String) (opts : ResolvedQP) :
    TranscodeInvocation :=
  let ext := jsToLowerCase (extname inputPath)
  let cfg := getFormatConfig_p0 ext opts
  { codec := cfg.codec, format := cfg.format, flags := cfg.options
    dropAudio := true }

/-- Engine invocation built by optimizeVideo in the second variant of
src/index.ts (lines 412-444): .noAudio() is called iff options.mute. -/
def optimizeVideoCmd_v2 (inputPath : String) (opts : ResolvedOptions) :
    TranscodeInvocation :=
  let ext := jsToLowerCase (extname inputPath)
  let cfg := getFormatConfig_v2 ext opts
  { codec := cfg.codec, format := cfg.format, flags := cfg.options
    dropAudio := opts.mute }

/-- A directory-tree entry as seen through readdir withFileTypes: a
plain file, or a directory with a named entry list in traversal order. -/
inductive FsEntry where
  | file : FsEntry
  | dir : List (String × FsEntry) → FsEntry

/-- Model of Node path.join for a directory path and an entry name. -/
def joinPath (dir name : String) : String := dir ++ "/" ++ name

/-- The scanDirectory walk inside findVideoFiles (identical in all
three variants): depth-first over the entry list, recursing into
subdirectories and collecting full paths of entries that pass
isVideoFile on their base name. -/
def scanEntries (exclude : List String) (cur : String) :
    List (String × FsEntry) → List String
  | [] => []
  | (name, FsEntry.file) :: rest =>
    (if isVideoFile name exclude then [joinPath cur name] else []) ++
      scanEntries exclude cur rest
  | (name, FsEntry.dir sub) :: rest =>
    scanEntries exclude (joinPath cur name) sub ++ scanEntries exclude cur rest

/-- findVideoFiles (identical in all three variants): the root is
either a nonexistent path (none, the existsSync guard returns at once)
or a directory entry list to walk. -/
def findVideoFiles (root : Option (List (String × FsEntry)))
    (rootPath : String) (exclude : List String) : List String :=
  match root with
  | none => []
  | some entries => scanEntries exclude rootPath entries

/-- All files anywhere under an entry list, as (full path, base name)
pairs in the same traversal order, with no filtering. -/
def allFiles (cur : String) : List (String × FsEntry) → List (String × String)
  | [] => []
  | (name, FsEntry.file) :: rest => (joinPath cur name, name) :: allFiles cur rest
  | (name, FsEntry.dir sub) :: rest =>
    allFiles (joinPath cur name) sub ++ allFiles cur rest

/-- The chunking loop of closeBundle (second variant of src/index.ts,
lines 513-516): chunks.push(videoFiles.slice(i, i + concurrency)) for
i = 0, c, 2c, ...; faithful to the source for every concurrency c at
least 1 (for c = 0 the JavaScript loop would not terminate). -/
def chunksOf (c : Nat) : List String → List (List String)
  | [] => []
  | x :: xs => (x :: xs.take (c - 1)) :: chunksOf c (xs.drop (c - 1))
  termination_by l => l.length
  decreasing_by
    simp only [List.length_drop, List.length_cons]
    omega

/-- Scheduler state for the group loop of closeBundle: the index of the
group currently driven by Promise.all, the members of that group that
have not yet reached a terminal state, and the (group, file) pairs that
have, in completion order. -/
structure SchedState where
  gidx : Nat
  inflight : List String
  finished : List (Nat × String)

/-- Initial scheduler state: the first group is in flight. -/
def initSched (groups : List (List String)) : SchedState :=
  { gidx := 0, inflight := groups.getD 0 [], finished := [] }

/-- One scheduler transition: either some in-flight file of the current
group reaches a terminal state (success or failure, order
unconstrained), or, when the whole current group is terminal, the await
of Promise.all returns and the loop starts the next group. -/
inductive SchedStep (groups : List (List String)) : SchedState → SchedState → Prop
  | finish (s : SchedState) (f : String) (hf : f ∈ s.inflight) :
      SchedStep groups s
        { gidx := s.gidx, inflight := s.inflight.erase f
          finished := s.finished ++ [(s.gidx, f)] }
  | next (s : SchedState) (hempty : s.inflight = [])
      (hlt : s.gidx + 1 < groups.length) :
      SchedStep groups s
        { gidx := s.gidx + 1, inflight := groups.getD (s.gidx + 1) []
          finished := s.finished }

/-- States reachable by the scheduler from the initial state. -/
def SchedReachable (groups : List (List String)) (s : SchedState) : Prop :=
  Relation.ReflTransGen (SchedStep groups) (initSched groups) s

/-- A flat file-system state: each path holds file contents or nothing. -/
def FS : Type := String → Option String

/-- Point update of a file-system state. -/
def FS.set (fs : FS) (p : String) (v : Option String) : FS :=
  fun q => if q = p then v else fs q

/-- fs/promises stat: the size of the file at `p`, ENOENT when absent. -/
def FS.statSize (fs : FS) (p : String) : Except String Nat :=
  match fs p with
  | some c => Except.ok c.length
  | none => Except.error "ENOENT: stat"

/-- fs/promises readFile: contents of the file at `p`, ENOENT when absent. -/
def FS.readFile (fs : FS) (p : String) : Except String String :=
  match fs p with
  | some c => Except.ok c
  | none => Except.error "ENOENT: read"

/-- fs/promises unlink: remove the file at `p`, ENOENT when absent. -/
def FS.unlink (fs : FS) (p : String) : Except String FS :=
  match fs p with
  | some _ => Except.ok (fs.set p none)
  | none => Except.error "ENOENT: unlink"

/-- fs/promises writeFile: (over)write the file at `p`. -/
def FS.writeFile (fs : FS) (p : String) (c : String) : FS :=
  fs.set p (some c)

/-- The external transcoding engine as an oracle: for an invocation
(codec, container, flags, audio handling) and an input path, either the
contents it writes to the temp output path, or the error it reports. -/
def Engine : Type := TranscodeInvocation → String → Except String String

/-- The temp output path of a candidate, `${videoFile}.tmp${ext}` with
ext the lowered extension, as computed in processFile / closeBundle. -/
def tmpPath (videoFile : String) : String :=
  videoFile ++ ".tmp" ++ jsToLowerCase (extname videoFile)

/-- optimizeVideo of the second variant of src/index.ts as a state
transformer: stat the input (rejecting when absent), run the engine
against the temp output path (rejecting on engine failure, writing the
produced contents on success), then stat the output. -/
def optimizeVideoRun (eng : Engine) (fs : FS) (inputPath outputPath : String)
    (vopts : ResolvedOptions) : Except String (FS × Nat × Nat) :=
  match fs.statSize inputPath with
  | Except.error e => Except.error e
  | Except.ok originalSize =>
    match eng (optimizeVideoCmd_v2 inputPath vopts) inputPath with
    | Except.error e => Except.error e
    | Except.ok produced =>
      let fs1 := fs.writeFile outputPath produced
      match fs1.statSize outputPath with
      | Except.error e => Except.error e
      | Except.ok optimizedSize => Except.ok (fs1, originalSize, optimizedSize)

/-- Terminal state of one candidate: Done with both sizes, or Failed
with the recorded error message. -/
inductive Outcome where
  | done (originalSize optimizedSize : Nat) : Outcome
  | failed (msg : String) : Outcome
  deriving DecidableEq

/-- The catch block of processFile: remove the temp output file if
still present (existsSync guard), leaving the rest of the state as the
failure left it. -/
def cleanupTemp (fs : FS) (temp : String) : FS :=
  if (fs temp).isSome then fs.set temp none else fs

/-- processFile from closeBundle (second variant of src/index.ts,
lines 471-510; the loop body of the legacy variants is the same up to
logging): optimize into the temp path, then unlink the original, write
the temp contents back to the original path, and unlink the temp; any
failure at any stage is caught at this boundary, the error is recorded
and the temp file removed if still present. -/
def processFile (eng : Engine) (options : OptimizeVideosOptions) (fs : FS)
    (videoFile : String) : FS × Outcome :=
  let ext := jsToLowerCase (extname videoFile)
  let temp := tmpPath videoFile
  let videoOptions := getVideoOptions ext options
  match optimizeVideoRun eng fs videoFile temp videoOptions with
  | Except.error e => (cleanupTemp fs temp, Outcome.failed e)
  | Except.ok (fs1, originalSize, optimizedSize) =>
    match fs1.unlink videoFile with
    | Except.error e => (cleanupTemp fs1 temp, Outcome.failed e)
    | Except.ok fs2 =>
      match fs2.readFile temp with
      | Except.error e => (cleanupTemp fs2 temp, Outcome.failed e)
      | Except.ok contents =>
        let fs3 := fs2.writeFile videoFile contents
        match fs3.unlink temp with
        | Except.error e => (cleanupTemp fs3 temp, Outcome.failed e)
        | Except.ok fs4 => (fs4, Outcome.done originalSize optimizedSize)

/-- The batch as run by closeBundle, linearized in list order (the
canonical schedule of the sequential group loop): the trace of
(post-state, outcome) snapshots, one per candidate, in order. -/
def runBatchTrace (eng : Engine) (options : OptimizeVideosOptions) (fs : FS) :
    List String → List (FS × Outcome)
  | [] => []
  | f :: rest =>
    let step := processFile eng options fs f
    step :: runBatchTrace eng options step.1 rest

/-- The file-system state after the whole batch. -/
def batchFinal (eng : Engine) (options : OptimizeVideosOptions) (fs : FS)
    (files : List String) : FS :=
  files.foldl (fun s f => (processFile eng options s f).1) fs

/-- Scheduler invariant: all files of the groups before the current one
are finished, and every file of the current group is in flight or
finished. -/
def SchedInv (groups : List (List String)) (s : SchedState) : Prop :=
  (∀ g, g < s.gidx → ∀ f ∈ groups.getD g [], (g, f) ∈ s.finished) ∧
  (∀ f ∈ groups.getD s.gidx [], f ∈ s.inflight ∨ (s.gidx, f) ∈ s.finished)

/-- The batching contract of closeBundle for a candidate list and a
concurrency bound: the groups concatenate back to the list, there are
ceil(n/c) of them, none exceeds the bound, every non-final group is
full, and in every reachable scheduler state a group that lies before
the current group is entirely finished (so a group never starts before
the previous one is fully terminal). -/
def SchedulerSpec (c : Nat) (l : List String) : Prop :=
  (chunksOf c l).flatten = l
  ∧ (chunksOf c l).length = (l.length + c - 1) / c
  ∧ (∀ g ∈ chunksOf c l, g.length ≤ c)
  ∧ (∀ i, i + 1 < (chunksOf c l).length →
      ((chunksOf c l).getD i []).length = c)
  ∧ (∀ s, SchedReachable (chunksOf c l) s →
      ∀ g, g < s.gidx → ∀ f ∈ (chunksOf c l).getD g [], (g, f) ∈ s.finished)

/-- Default trace element for indexed access into a batch trace. -/
def dfltStep : FS × Outcome := (fun _ => none, Outcome.done 0 0)

/-- A file system with no files, for concrete instantiations. -/
def emptyFS : FS := fun _ => none

/-- A file system holding one candidate, for concrete instantiations. -/
def oneFileFS : FS := fun p => if p = "a.mp4" then some "ORIGINAL" else none

/-- An engine that rejects every invocation, for concrete instantiations. -/
def failingEngine : Engine := fun _ _ => Except.error "engine failure"

/-- An engine that writes the contents "OPT" for every invocation, for
concrete instantiations. -/
def okEngine : Engine := fun _ _ => Except.ok "OPT"

/-- The spec scenario directory tree: /out/a.mp4, /out/b.webm,
/out/sub/c.gif. -/
def demoEntries : List (String × FsEntry) :=
  [("a.mp4", FsEntry.file), ("b.webm", FsEntry.file),
    ("sub", FsEntry.dir [("c.gif", FsEntry.file)])]

/-- Helper: a pattern fails to match iff both of its modes fail: for a
dot pattern the lowered extension differs from it, otherwise it is not
a substring of the file name. -/
theorem patternMatches_eq_false_iff (lowerExt fileName pattern : String) :
    patternMatches lowerExt fileName pattern = false ↔
      (startsWithDot pattern = true → lowerExt ≠ pattern) ∧
      (startsWithDot pattern = false → jsIncludes fileName pattern = false) := by
  cases hd : startsWithDot pattern <;> simp [patternMatches, hd]

/-- C3: getVideoOptions resolves quality, preset and mute with strict
precedence: the per-extension override field when present, otherwise
the global option field, otherwise the built-in default (quality 18,
preset "medium", mute false); with options
quality = 20 and .mp4 override quality = 18, an .mp4 file resolves
quality 18 and a .webm file resolves quality 20. -/
theorem claim_C3_option_precedence :
    (∀ (ext : String) (o : OptimizeVideosOptions),
      (getVideoOptions ext o).quality =
        (match (lookupFormat (jsToLowerCase ext) o).bind VideoFormatOptions.quality,
            o.quality with
          | some q, _ => q
          | none, some q => q
          | none, none => 18)
      ∧ (getVideoOptions ext o).preset =
        (match (lookupFormat (jsToLowerCase ext) o).bind VideoFormatOptions.preset,
            o.preset with
          | some p, _ => p
          | none, some p => p
          | none, none => "medium")
      ∧ (getVideoOptions ext o).mute =
        (match (lookupFormat (jsToLowerCase ext) o).bind VideoFormatOptions.mute,
            o.mute with
          | some b, _ => b
          | none, some b => b
          | none, none => false))
    ∧ getVideoOptions ".mp4"
        { quality := some 20, mp4 := some { quality := some 18 } } =
        { quality := 18, preset := "medium", mute := false }
    ∧ getVideoOptions ".webm"
        { quality := some 20, mp4 := some { quality := some 18 } } =
        { quality := 20, preset := "medium", mute := false } := by
  refine ⟨fun ext o => ⟨?_, ?_, ?_⟩, by decide, by decide⟩
  · cases hfo : (lookupFormat (jsToLowerCase ext) o).bind VideoFormatOptions.quality with
    | some q => simp [getVideoOptions, hfo, Option.orElse]
    | none =>
      cases ho : o.quality <;> simp [getVideoOptions, hfo, ho, Option.orElse]
  · cases hfo : (lookupFormat (jsToLowerCase ext) o).bind VideoFormatOptions.preset with
    | some p => simp [getVideoOptions, hfo, Option.orElse]
    | none =>
      cases ho : o.preset <;> simp [getVideoOptions, hfo, ho, Option.orElse]
  · cases hfo : (lookupFormat (jsToLowerCase ext) o).bind VideoFormatOptions.mute with
    | some b => simp [getVideoOptions, hfo, Option.orElse]
    | none =>
      cases ho : o.mute <;> simp [getVideoOptions, hfo, ho, Option.orElse]

/-- C4 counterexample: the claim says a dot pattern excludes a file iff
the pattern equals the file's extension under case-insensitive
comparison. For the file video.MP4 and the pattern ".MP4" the two are
equal case-insensitively (their lowerings agree), yet isVideoFile still
accepts the file: the code lowercases only the file's extension, never
the pattern, so the comparison is case-sensitive in the pattern. -/
theorem claim_C4_counterexample :
    jsToLowerCase (extname "video.MP4") = jsToLowerCase ".MP4" ∧
    isVideoFile "video.MP4" [".MP4"] = true := by decide

/-- Helper: isVideoFile accepts iff the lowered extension is supported
and every exclude pattern fails to match. -/
theorem isVideoFile_iff_patterns (fileName : String) (exclude : List String) :
    isVideoFile fileName exclude = true ↔
      (jsToLowerCase (extname fileName) ∈ VIDEO_EXTENSIONS ∧
        ∀ pattern ∈ exclude,
          patternMatches (jsToLowerCase (extname fileName)) fileName pattern
            = false) := by
  by_cases hm : jsToLowerCase (extname fileName) ∈ VIDEO_EXTENSIONS
  · have hc : VIDEO_EXTENSIONS.contains (jsToLowerCase (extname fileName)) = true := by
      simpa using hm
    simp only [isVideoFile, hc, Bool.not_true, Bool.false_eq_true, if_false,
      Bool.not_eq_true', List.any_eq_false, Bool.not_eq_true, hm, true_and]
  · have hc : VIDEO_EXTENSIONS.contains (jsToLowerCase (extname fileName)) = false := by
      simpa using hm
    simp [isVideoFile, hc, hm]

/-- C4 amended: a file is a candidate iff its lowered extension is
supported and no exclude pattern matches it, where a pattern starting
with "." matches iff it is exactly equal (case-sensitively) to the
lowered extension of the file, and any other pattern matches iff it
occurs case-sensitively as a substring of the name the scanner passes
(the base name). -/
theorem claim_C4_exclusion_rule :
    ∀ (fileName : String) (exclude : List String),
      isVideoFile fileName exclude = true ↔
        (jsToLowerCase (extname fileName) ∈ VIDEO_EXTENSIONS ∧
          ∀ pattern ∈ exclude,
            (startsWithDot pattern = true →
              jsToLowerCase (extname fileName) ≠ pattern) ∧
            (startsWithDot pattern = false →
              jsIncludes fileName pattern = false)) := by
  intro fileName exclude
  rw [isVideoFile_iff_patterns]
  exact and_congr_right fun _ =>
    forall₂_congr fun pat _ => patternMatches_eq_false_iff _ _ _

/-- C4 witness: a non-dot pattern that is not a substring of the base
name leaves the file a candidate. -/
theorem claim_C4_witness : isVideoFile "clip.mp4" ["intro"] = true :=
  (claim_C4_exclusion_rule "clip.mp4" ["intro"]).mpr (by decide)

/-- C3 witness: the spec scenario for an .mp4 file. -/
theorem claim_C3_witness :
    getVideoOptions ".mp4"
      { quality := some 20, mp4 := some { quality := some 18 } } =
      { quality := 18, preset := "medium", mute := false } :=
  claim_C3_option_precedence.2.1

/-- C7 counterexample: the claim says audio is dropped iff the resolved
mute flag is true. With empty options mute resolves to false, yet the
optimizeVideo of the first variant of src/index.ts (lines 167-172) and
of src/unnamed/part_000 (lines 166-171) always call .noAudio(), so the
engine is invoked with the audio stream dropped. -/
theorem claim_C7_counterexample :
    (getVideoOptions ".mp4" {}).mute = false ∧
    (optimizeVideoCmd_v1 "a.mp4" { quality := 18, preset := "medium" }).dropAudio = true ∧
    (optimizeVideoCmd_p0 "a.mp4" { quality := 18, preset := "medium" }).dropAudio = true := by
  decide

/-- C7 amended: in the concurrency-enabled second variant of
src/index.ts the engine is invoked with the audio stream dropped iff
the resolved mute flag is true; in the two legacy variants the audio
stream is always dropped, whatever the options (they expose no mute
option at all). -/
theorem claim_C7_mute_controls_audio :
    (∀ (inputPath : String) (o : OptimizeVideosOptions),
      (optimizeVideoCmd_v2 inputPath
        (getVideoOptions (jsToLowerCase (extname inputPath)) o)).dropAudio =
      (getVideoOptions (jsToLowerCase (extname inputPath)) o).mute)
    ∧ (∀ (inputPath : String) (qp : ResolvedQP),
        (optimizeVideoCmd_v1 inputPath qp).dropAudio = true
        ∧ (optimizeVideoCmd_p0 inputPath qp).dropAudio = true) :=
  ⟨fun _ _ => rfl, fun _ _ => ⟨rfl, rfl⟩⟩

/-- C8: for .webm every variant resolves the VP9-class codec in
constant-quality mode: CRF = quality, target bitrate forced to 0,
pixel format yuv420p, and cpu-used 0 for preset "slow", 2 for
"medium", 4 for "fast" and for any other preset value. -/
theorem claim_C8_webm_vp9_config :
    (∀ (q : Nat) (p : String) (m : Bool),
      getFormatConfig_v2 ".webm" { quality := q, preset := p, mute := m } =
        { codec := "libvpx-vp9", format := "webm"
          options := ["-crf", toString q, "-b:v", "0", "-pix_fmt", "yuv420p",
            "-cpu-used",
            if p = "slow" then "0" else if p = "medium" then "2" else "4",
            "-y"] }
      ∧ getFormatConfig_v1 ".webm" { quality := q, preset := p } =
        { codec := "libvpx-vp9", format := "webm"
          options := ["-crf", toString q, "-b:v", "0", "-pix_fmt", "yuv420p",
            "-cpu-used",
            if p = "slow" then "0" else if p = "medium" then "2" else "4",
            "-y"] }
      ∧ getFormatConfig_p0 ".webm" { quality := q, preset := p } =
        { codec := "libvpx-vp9", format := "webm"
          options := ["-crf", toString q, "-b:v", "0", "-pix_fmt", "yuv420p",
            "-cpu-used",
            if p = "slow" then "0" else if p = "medium" then "2" else "4",
            "-y"] })
    ∧ (∀ (q : Nat) (p : String) (m : Bool), p ≠ "slow" → p ≠ "medium" →
        (getFormatConfig_v2 ".webm" { quality := q, preset := p, mute := m }).options =
          ["-crf", toString q, "-b:v", "0", "-pix_fmt", "yuv420p",
            "-cpu-used", "4", "-y"]) := by
  constructor
  · intro q p m
    refine ⟨?_, ?_, ?_⟩ <;>
      simp [getFormatConfig_v2, getFormatConfig_v1, getFormatConfig_p0,
        show jsToLowerCase ".webm" = ".webm" from rfl]
  · intro q p m h1 h2
    simp [getFormatConfig_v2, show jsToLowerCase ".webm" = ".webm" from rfl,
      h1, h2]

/-- C8 witness: a preset outside slow/medium/fast maps to cpu-used 4. -/
theorem claim_C8_witness :
    (getFormatConfig_v2 ".webm" { quality := 23, preset := "veryfast", mute := true }).options =
      ["-crf", "23", "-b:v", "0", "-pix_fmt", "yuv420p", "-cpu-used", "4", "-y"] :=
  claim_C8_webm_vp9_config.2 23 "veryfast" true (by decide) (by decide)

/-- C9 counterexample: the claim says every unsupported extension is
treated like .avi. In the second variant of src/index.ts the extension
".gif" falls into the else branch that keeps the mp4 defaults: the
container is "mp4", not "avi", and the mp4-only flags (such as
-movflags) are emitted. -/
theorem claim_C9_counterexample :
    (getFormatConfig_v2 ".gif" { quality := 18, preset := "medium", mute := false }).format = "mp4" ∧
    (getFormatConfig_v2 ".gif" { quality := 18, preset := "medium", mute := false }).format ≠ "avi" ∧
    "-movflags" ∈ (getFormatConfig_v2 ".gif" { quality := 18, preset := "medium", mute := false }).options := by
  decide

/-- C9 amended: resolution is total (every extension yields a config).
For an extension whose lowering is outside the supported set, the two
legacy variants return the generic H.264 configuration treated like
.avi (container "avi", codec libx264, with only the CRF, preset and
pixel-format flags plus the overwrite flag), while the second variant
of src/index.ts treats it like .mp4 (container "mp4", codec libx264,
with additionally the profile, level and faststart flags). -/
theorem claim_C9_fallback_config :
    ∀ (ext : String) (q : Nat) (p : String) (m : Bool),
      jsToLowerCase ext ∉ VIDEO_EXTENSIONS →
        getFormatConfig_v1 ext { quality := q, preset := p } =
          { codec := "libx264", format := "avi"
            options := ["-crf", toString q, "-preset", p, "-pix_fmt",
              "yuv420p", "-y"] }
        ∧ getFormatConfig_p0 ext { quality := q, preset := p } =
          { codec := "libx264", format := "avi"
            options := ["-crf", toString q, "-preset", p, "-pix_fmt",
              "yuv420p", "-y"] }
        ∧ getFormatConfig_v2 ext { quality := q, preset := p, mute := m } =
          { codec := "libx264", format := "mp4"
            options := ["-crf", toString q, "-preset", p, "-pix_fmt",
              "yuv420p", "-y", "-profile:v", "high", "-level", "4.0",
              "-movflags", "+faststart"] } := by
  intro ext q p m h
  simp only [VIDEO_EXTENSIONS, List.mem_cons, List.not_mem_nil, or_false,
    not_or] at h
  obtain ⟨h1, h2, h3, h4⟩ := h
  refine ⟨?_, ?_, ?_⟩ <;>
    simp [getFormatConfig_v1, getFormatConfig_p0, getFormatConfig_v2,
      h1, h2, h3, h4]

/-- C9 witness: the fallback configurations at the unsupported
extension ".gif". -/
theorem claim_C9_witness :
    jsToLowerCase ".gif" ∉ VIDEO_EXTENSIONS ∧
    (getFormatConfig_v1 ".gif" { quality := 18, preset := "medium" } =
      { codec := "libx264", format := "avi"
        options := ["-crf", "18", "-preset", "medium", "-pix_fmt",
          "yuv420p", "-y"] }
    ∧ getFormatConfig_p0 ".gif" { quality := 18, preset := "medium" } =
      { codec := "libx264", format := "avi"
        options := ["-crf", "18", "-preset", "medium", "-pix_fmt",
          "yuv420p", "-y"] }
    ∧ getFormatConfig_v2 ".gif" { quality := 18, preset := "medium", mute := false } =
      { codec := "libx264", format := "mp4"
        options := ["-crf", "18", "-preset", "medium", "-pix_fmt",
          "yuv420p", "-y", "-profile:v", "high", "-level", "4.0",
          "-movflags", "+faststart"] }) :=
  ⟨by decide, claim_C9_fallback_config ".gif" 18 "medium" false (by decide)⟩

/-- C10: on every supported extension the three source variants of
getFormatConfig return the same codec identifier, the same container
format name, and the same multiset of encoder flag tokens (the two
legacy variants agree exactly; the second variant of src/index.ts
emits the .mp4 flags in a different order, a permutation). -/
theorem claim_C10_variant_equivalence :
    ∀ e ∈ VIDEO_EXTENSIONS, ∀ (q : Nat) (p : String) (m : Bool),
      getFormatConfig_p0 e { quality := q, preset := p } =
        getFormatConfig_v1 e { quality := q, preset := p }
      ∧ (getFormatConfig_v1 e { quality := q, preset := p }).codec =
        (getFormatConfig_v2 e { quality := q, preset := p, mute := m }).codec
      ∧ (getFormatConfig_v1 e { quality := q, preset := p }).format =
        (getFormatConfig_v2 e { quality := q, preset := p, mute := m }).format
      ∧ List.Perm (getFormatConfig_v1 e { quality := q, preset := p }).options
        (getFormatConfig_v2 e { quality := q, preset := p, mute := m }).options := by
  intro e he q p m
  simp only [VIDEO_EXTENSIONS, List.mem_cons, List.not_mem_nil, or_false] at he
  rcases he with rfl | rfl | rfl | rfl
  · refine ⟨rfl, rfl, rfl, ?_⟩
    show List.Perm
      (["-crf", toString q, "-preset", p] ++
        ["-profile:v", "high", "-level", "4.0", "-pix_fmt", "yuv420p",
          "-movflags", "+faststart", "-y"])
      (["-crf", toString q, "-preset", p] ++
        ["-pix_fmt", "yuv420p", "-y", "-profile:v", "high", "-level", "4.0",
          "-movflags", "+faststart"])
    exact List.Perm.append_left _ (by decide)
  · exact ⟨rfl, rfl, rfl, List.Perm.refl _⟩
  · exact ⟨rfl, rfl, rfl, List.Perm.refl _⟩
  · exact ⟨rfl, rfl, rfl, List.Perm.refl _⟩

/-- C10 witness: the three variants agree at .mp4, quality 18, preset
"medium". -/
theorem claim_C10_witness :
    ".mp4" ∈ VIDEO_EXTENSIONS ∧
    (getFormatConfig_p0 ".mp4" { quality := 18, preset := "medium" } =
      getFormatConfig_v1 ".mp4" { quality := 18, preset := "medium" }
    ∧ (getFormatConfig_v1 ".mp4" { quality := 18, preset := "medium" }).codec =
      (getFormatConfig_v2 ".mp4" { quality := 18, preset := "medium", mute := false }).codec
    ∧ (getFormatConfig_v1 ".mp4" { quality := 18, preset := "medium" }).format =
      (getFormatConfig_v2 ".mp4" { quality := 18, preset := "medium", mute := false }).format
    ∧ List.Perm (getFormatConfig_v1 ".mp4" { quality := 18, preset := "medium" }).options
      (getFormatConfig_v2 ".mp4" { quality := 18, preset := "medium", mute := false }).options) :=
  ⟨by decide, claim_C10_variant_equivalence ".mp4" (by decide) 18 "medium" false⟩

/-- C7 witness: the conditional .noAudio of the second variant follows
the resolved mute flag on a concrete input. -/
theorem claim_C7_witness :
    (optimizeVideoCmd_v2 "a.mp4"
      (getVideoOptions (jsToLowerCase (extname "a.mp4")) {})).dropAudio =
    (getVideoOptions (jsToLowerCase (extname "a.mp4")) {}).mute :=
  claim_C7_mute_controls_audio.1 "a.mp4" {}

/-- Helper: a full path is in the scan result iff it is a file
somewhere in the tree whose base name passes isVideoFile. -/
theorem scanEntries_mem_iff (exclude : List String) (cur : String)
    (es : List (String × FsEntry)) :
    ∀ p, p ∈ scanEntries exclude cur es ↔
      ∃ b, (p, b) ∈ allFiles cur es ∧ isVideoFile b exclude = true := by
  induction cur, es using allFiles.induct with
  | case1 cur => simp [scanEntries, allFiles]
  | case2 cur name rest ih =>
    intro p
    simp only [scanEntries, allFiles, List.mem_append, List.mem_cons, ih]
    constructor
    · rintro (h | ⟨b, hb, hvb⟩)
      · by_cases hv : isVideoFile name exclude = true
        · rw [if_pos hv] at h
          rcases List.mem_singleton.mp h with rfl
          exact ⟨name, Or.inl rfl, hv⟩
        · rw [if_neg hv] at h
          exact absurd h (List.not_mem_nil p)
      · exact ⟨b, Or.inr hb, hvb⟩
    · rintro ⟨b, heq | hmem, hvb⟩
      · rw [Prod.mk.injEq] at heq
        obtain ⟨rfl, rfl⟩ := heq
        left
        rw [if_pos hvb]
        exact List.mem_singleton.mpr rfl
      · exact Or.inr ⟨b, hmem, hvb⟩
  | case3 cur name sub rest ih1 ih2 =>
    intro p
    simp only [scanEntries, allFiles, List.mem_append, ih1, ih2]
    constructor
    · rintro (⟨b, hb, hvb⟩ | ⟨b, hb, hvb⟩)
      · exact ⟨b, Or.inl hb, hvb⟩
      · exact ⟨b, Or.inr hb, hvb⟩
    · rintro ⟨b, hb | hb, hvb⟩
      · exact Or.inl ⟨b, hb, hvb⟩
      · exact Or.inr ⟨b, hb, hvb⟩

/-- C5: a nonexistent root yields the empty list, and for an existing
root the scan returns exactly the files, at any nesting depth, whose
lowered extension is supported and which match no exclude pattern. -/
theorem claim_C5_scanner :
    (∀ (rootPath : String) (exclude : List String),
      findVideoFiles none rootPath exclude = [])
    ∧ ∀ (entries : List (String × FsEntry)) (rootPath : String)
        (exclude : List String) (p : String),
      p ∈ findVideoFiles (some entries) rootPath exclude ↔
        ∃ b, (p, b) ∈ allFiles rootPath entries ∧
          jsToLowerCase (extname b) ∈ VIDEO_EXTENSIONS ∧
          ∀ pattern ∈ exclude,
            patternMatches (jsToLowerCase (extname b)) b pattern = false := by
  refine ⟨fun _ _ => rfl, fun entries rootPath exclude p => ?_⟩
  refine (scanEntries_mem_iff exclude rootPath entries p).trans ?_
  exact exists_congr fun b => and_congr_right fun _ =>
    isVideoFile_iff_patterns b exclude

/-- C5 witness: in the spec scenario tree, /out/a.mp4 is found. -/
theorem claim_C5_witness :
    "/out/a.mp4" ∈ findVideoFiles (some demoEntries) "/out" [] :=
  (claim_C5_scanner.2 demoEntries "/out" [] "/out/a.mp4").mpr
    ⟨"a.mp4", by simp [demoEntries, allFiles, joinPath], by decide, by decide⟩

/-- Helper: the groups concatenate back to the candidate list. -/
theorem chunksOf_flatten (c : Nat) (l : List String) :
    (chunksOf c l).flatten = l := by
  induction l using chunksOf.induct c with
  | case1 => simp [chunksOf]
  | case2 x xs ih =>
    simp only [chunksOf, List.flatten_cons, ih]
    simp [List.take_append_drop]

/-- Helper: there are ceil(n/c) groups. -/
theorem chunksOf_length (c : Nat) (hc : 0 < c) (l : List String) :
    (chunksOf c l).length = (l.length + c - 1) / c := by
  induction l using chunksOf.induct c with
  | case1 =>
    simp [chunksOf, Nat.div_eq_of_lt (by omega : c - 1 < c)]
  | case2 x xs ih =>
    simp only [chunksOf, List.length_cons, ih, List.length_drop]
    have h2 : xs.length + 1 + c - 1 = xs.length + c := by omega
    rw [h2, Nat.add_div_right _ hc]
    rcases le_or_lt (c - 1) xs.length with h | h
    · have h1 : xs.length - (c - 1) + c - 1 = xs.length := by omega
      rw [h1]
    · have h1 : xs.length - (c - 1) + c - 1 = c - 1 := by omega
      rw [h1, Nat.div_eq_of_lt (by omega), Nat.div_eq_of_lt (by omega)]

/-- Helper: no group exceeds the concurrency bound. -/
theorem chunksOf_sizes (c : Nat) (hc : 0 < c) (l : List String) :
    ∀ g ∈ chunksOf c l, g.length ≤ c := by
  induction l using chunksOf.induct c with
  | case1 => intro g hg; simp [chunksOf] at hg
  | case2 x xs ih =>
    intro g hg
    simp only [chunksOf] at hg
    rcases List.mem_cons.mp hg with rfl | hg2
    · simp only [List.length_cons, List.length_take]
      omega
    · exact ih g hg2

/-- Helper: every group other than the last is full. -/
theorem chunksOf_full (c : Nat) (hc : 0 < c) (l : List String) :
    ∀ i, i + 1 < (chunksOf c l).length →
      ((chunksOf c l).getD i []).length = c := by
  induction l using chunksOf.induct c with
  | case1 => intro i hi; simp [chunksOf] at hi
  | case2 x xs ih =>
    intro i hi
    simp only [chunksOf, List.length_cons] at hi
    cases i with
    | zero =>
      simp only [chunksOf, List.getD_cons_zero, List.length_cons,
        List.length_take]
      cases hd : xs.drop (c - 1) with
      | nil =>
        rw [hd] at hi
        simp [chunksOf] at hi
      | cons y ys =>
        have hlen := congrArg List.length hd
        simp only [List.length_drop, List.length_cons] at hlen
        omega
    | succ j =>
      simp only [chunksOf, List.getD_cons_succ]
      exact ih j (by omega)

/-- Helper: the invariant holds initially. -/
theorem schedInv_init (groups : List (List String)) :
    SchedInv groups (initSched groups) :=
  ⟨fun g hg => absurd hg (Nat.not_lt_zero g), fun _ hf => Or.inl hf⟩

/-- Helper: every scheduler transition preserves the invariant. -/
theorem schedInv_step (groups : List (List String)) (s s' : SchedState) :
    SchedInv groups s → SchedStep groups s s' → SchedInv groups s' := by
  intro hinv hstep
  cases hstep with
  | finish f hf =>
    obtain ⟨h1, h2⟩ := hinv
    refine ⟨fun g hg f' hf' => List.mem_append_left _ (h1 g hg f' hf'), ?_⟩
    intro f' hf'
    rcases h2 f' hf' with hin | hdone
    · by_cases hef : f' = f
      · subst hef
        exact Or.inr (List.mem_append_right _ (List.mem_singleton.mpr rfl))
      · exact Or.inl ((List.mem_erase_of_ne hef).mpr hin)
    · exact Or.inr (List.mem_append_left _ hdone)
  | next hemp hlt =>
    obtain ⟨h1, h2⟩ := hinv
    refine ⟨?_, fun _ hf => Or.inl hf⟩
    intro g hg f' hf'
    rcases Nat.lt_succ_iff_lt_or_eq.mp hg with h | rfl
    · exact h1 g h f' hf'
    · rcases h2 f' hf' with hin | hdone
      · rw [hemp] at hin
        exact absurd hin (List.not_mem_nil f')
      · exact hdone

/-- Helper: the invariant holds in every reachable scheduler state. -/
theorem schedInv_reachable (groups : List (List String)) (s : SchedState) :
    SchedReachable groups s → SchedInv groups s := by
  intro h
  induction h with
  | refl => exact schedInv_init groups
  | tail hr hstep ih => exact schedInv_step groups _ _ ih hstep

/-- C1: for concurrency at least 1 the scheduler partitions the
candidate list in order into ceil(n/c) groups whose concatenation is
the original list, each of size at most c with only the last group
possibly smaller, and in every reachable state of the group loop a
group beyond group g can only have started once every file of group g
is terminal; 5 candidates at concurrency 2 give groups of sizes
[2, 2, 1]. -/
theorem claim_C1_batch_scheduling :
    ∀ (c : Nat), 1 ≤ c → ∀ (l : List String),
      SchedulerSpec c l
      ∧ (chunksOf 2 ["a", "b", "c", "d", "e"]).map List.length = [2, 2, 1] := by
  intro c hc l
  refine ⟨⟨chunksOf_flatten c l, chunksOf_length c hc l, chunksOf_sizes c hc l,
    chunksOf_full c hc l, ?_⟩, by simp [chunksOf]⟩
  intro s hs g hg f hf
  exact (schedInv_reachable (chunksOf c l) s hs).1 g hg f hf

/-- C1 witness: the specification instantiated at concurrency 2 and the
five-candidate list. -/
theorem claim_C1_witness :
    1 ≤ 2 ∧
    (SchedulerSpec 2 ["a", "b", "c", "d", "e"]
      ∧ (chunksOf 2 ["a", "b", "c", "d", "e"]).map List.length = [2, 2, 1]) :=
  ⟨by decide, claim_C1_batch_scheduling 2 (by decide) ["a", "b", "c", "d", "e"]⟩

/-- Helper: the catch block always leaves no file at the temp path. -/
theorem cleanupTemp_none (fs : FS) (t : String) : cleanupTemp fs t t = none := by
  unfold cleanupTemp
  by_cases h : (fs t).isSome
  · rw [if_pos h]; simp [FS.set]
  · rw [if_neg h]; exact Option.not_isSome_iff_eq_none.mp h

/-- Helper: whenever a file's processing unit ends in Failed, its temp
output path is absent from the unit's post-state. -/
theorem processFile_failed (eng : Engine) (options : OptimizeVideosOptions)
    (fs : FS) (videoFile : String) :
    ∀ e, (processFile eng options fs videoFile).2 = Outcome.failed e →
      (processFile eng options fs videoFile).1 (tmpPath videoFile) = none := by
  intro e
  simp only [processFile]
  split
  · intro _; exact cleanupTemp_none _ _
  · split
    · intro _; exact cleanupTemp_none _ _
    · split
      · intro _; exact cleanupTemp_none _ _
      · split
        · intro _; exact cleanupTemp_none _ _
        · intro h; exact Outcome.noConfusion h

/-- Helper: the batch trace has one entry per candidate, whatever
failures occur. -/
theorem runBatchTrace_length (eng : Engine) (options : OptimizeVideosOptions) :
    ∀ (files : List String) (fs : FS),
      (runBatchTrace eng options fs files).length = files.length := by
  intro files
  induction files with
  | nil => intro fs; rfl
  | cons f rest ih => intro fs; simp [runBatchTrace, ih]

/-- Helper: the batch over an appended list is the batch over the first
part followed by the batch over the second from the resulting state:
earlier groups, failing or not, never prevent later groups from being
processed. -/
theorem runBatchTrace_append (eng : Engine) (options : OptimizeVideosOptions) :
    ∀ (l1 l2 : List String) (fs : FS),
      runBatchTrace eng options fs (l1 ++ l2) =
        runBatchTrace eng options fs l1 ++
          runBatchTrace eng options (batchFinal eng options fs l1) l2 := by
  intro l1
  induction l1 with
  | nil => intro l2 fs; simp [runBatchTrace, batchFinal]
  | cons f rest ih =>
    intro l2 fs
    simp [runBatchTrace, batchFinal, ih, List.foldl_cons]

/-- Helper: elementwise temp-file cleanup along the batch trace. -/
theorem runBatchTrace_cleanup (eng : Engine) (options : OptimizeVideosOptions) :
    ∀ (files : List String) (fs : FS) (i : Nat), i < files.length → ∀ e,
      ((runBatchTrace eng options fs files).getD i dfltStep).2 =
        Outcome.failed e →
      ((runBatchTrace eng options fs files).getD i dfltStep).1
        (tmpPath (files.getD i "")) = none := by
  intro files
  induction files with
  | nil => intro fs i hi; simp at hi
  | cons f rest ih =>
    intro fs i hi e
    cases i with
    | zero =>
      simp only [runBatchTrace, List.getD_cons_zero]
      exact processFile_failed eng options fs f e
    | succ j =>
      simp only [runBatchTrace, List.getD_cons_succ]
      exact ih _ j (by simpa using hi) e

/-- Helper: the temp output path of a candidate differs from the
candidate's own path (it is strictly longer). -/
theorem tmpPath_ne (f : String) : tmpPath f ≠ f := by
  intro h
  have hl := congrArg String.length h
  simp only [tmpPath, String.length_append] at hl
  have h4 : (".tmp" : String).length = 4 := rfl
  omega

/-- C2: failures are contained at the per-file boundary: the batch
trace has a terminal outcome for every candidate regardless of any
failures, a unit that ends Failed records its error and leaves no file
at its temp path, and the batch over earlier candidates composes with
the batch over later ones, so no per-file failure aborts the batch or
the files of the same or a later group. -/
theorem claim_C2_failure_isolation :
    ∀ (eng : Engine) (options : OptimizeVideosOptions) (fs : FS)
      (files : List String),
      (runBatchTrace eng options fs files).length = files.length
      ∧ (∀ i, i < files.length → ∀ e,
          ((runBatchTrace eng options fs files).getD i dfltStep).2 =
            Outcome.failed e →
          ((runBatchTrace eng options fs files).getD i dfltStep).1
            (tmpPath (files.getD i "")) = none)
      ∧ (∀ (l1 l2 : List String),
          runBatchTrace eng options fs (l1 ++ l2) =
            runBatchTrace eng options fs l1 ++
              runBatchTrace eng options (batchFinal eng options fs l1) l2) :=
  fun eng options fs files =>
    ⟨runBatchTrace_length eng options files fs,
      fun i hi e => runBatchTrace_cleanup eng options files fs i hi e,
      fun l1 l2 => runBatchTrace_append eng options l1 l2 fs⟩

/-- C2 witness: a file whose transcode fails (empty file system, engine
rejecting) ends with no file at its temp path. -/
theorem claim_C2_witness :
    ((runBatchTrace failingEngine {} emptyFS ["a.mp4"]).getD 0 dfltStep).1
      (tmpPath "a.mp4") = none :=
  (claim_C2_failure_isolation failingEngine {} emptyFS ["a.mp4"]).2.1 0
    (by decide) "ENOENT: stat" (by decide)

/-- C6: for a candidate whose transcode succeeds (engine contract: a
valid, hence non-empty, output), the replacement sequence
delete-original, write-temp-contents, delete-temp ends with the engine
output at the original path (which keeps its original extension), a
non-empty file there, no file at the `.tmp<ext>` temp path, and every
other path untouched. -/
theorem claim_C6_replacement :
    ∀ (eng : Engine) (options : OptimizeVideosOptions) (fs : FS)
      (videoFile original produced : String),
      fs videoFile = some original →
      eng (optimizeVideoCmd_v2 videoFile
        (getVideoOptions (jsToLowerCase (extname videoFile)) options)) videoFile
        = Except.ok produced →
      produced ≠ "" →
      ∃ fs', processFile eng options fs videoFile =
          (fs', Outcome.done original.length produced.length)
        ∧ fs' videoFile = some produced
        ∧ (∃ content, fs' videoFile = some content ∧ content ≠ "")
        ∧ fs' (tmpPath videoFile) = none
        ∧ ∀ q, q ≠ videoFile → q ≠ tmpPath videoFile → fs' q = fs q := by
  intro eng options fs videoFile original produced hOrig hEng hprod
  have hnev : videoFile ≠ tmpPath videoFile :=
    fun h => tmpPath_ne videoFile h.symm
  have hnet : tmpPath videoFile ≠ videoFile := tmpPath_ne videoFile
  refine ⟨(((fs.writeFile (tmpPath videoFile) produced).set videoFile
      none).writeFile videoFile produced).set (tmpPath videoFile) none,
    ?_, ?_, ?_, ?_, ?_⟩
  · simp only [processFile, optimizeVideoRun, FS.statSize, FS.readFile,
      FS.unlink, FS.writeFile, FS.set, hOrig, hEng, hnev, hnet,
      if_neg hnev, if_neg hnet, if_pos rfl]
    simp [FS.set, hOrig, hnev, hnet]
  · simp [FS.set, FS.writeFile, hnev]
  · exact ⟨produced, by simp [FS.set, FS.writeFile, hnev], hprod⟩
  · simp [FS.set]
  · intro q hq1 hq2
    simp [FS.set, FS.writeFile, hq1, hq2]

/-- C6 witness: a concrete successful run replaces a.mp4 by the engine
output and leaves no temp file. -/
theorem claim_C6_witness :
    ∃ fs', processFile okEngine {} oneFileFS "a.mp4" =
        (fs', Outcome.done ("ORIGINAL" : String).length ("OPT" : String).length)
      ∧ fs' "a.mp4" = some "OPT"
      ∧ (∃ content, fs' "a.mp4" = some content ∧ content ≠ "")
      ∧ fs' (tmpPath "a.mp4") = none
      ∧ ∀ q, q ≠ "a.mp4" → q ≠ tmpPath "a.mp4" → fs' q = oneFileFS q :=
  claim_C6_replacement okEngine {} oneFileFS "a.mp4" "ORIGINAL" "OPT"
    (by decide) rfl (by decide)

end VitePluginOptimizeVideos
